import Mathlib

/-!
Verification of the meter/effect core of the game-off-2024 repository
(src/meter.rs).

The Rust module defines two generic Bevy components and one system:

  * `Meter<T: MeterMarker>` with public fields `max` and `current` of type
    `T::Field`;
  * `MeterEffect<T: MeterEffectMarker>` with a private field `amount` of the
    field type of the targeted meter marker;
  * the system `MeterEffect::<T>::apply_effect`, which iterates over every
    entity carrying both a `Meter<T::Marker>` and a `MeterEffect<T>` and
    performs `meter.current += effect.amount`.

The embedding below mirrors these definitions.  The marker traits become
type classes carrying the associated types; the `NumAssignOps` bound on the
field type is represented by the add-assign operation actually used by the
code.  The Bevy world, as far as these components are concerned, is a list
of entities; each entity optionally carries a meter and an effect for each
of two independent effect-marker kinds, which is enough to express every
claim, including the ones about unrelated meter kinds coexisting on one
entity.  The system `apply_effect` for the first kind maps its loop body
over the world, skipping entities that do not carry both components, as the
Bevy query does.
-/

/-- Rust trait `MeterMarker`: a marker type declaring the numeric field type
of its meters.  Of the `NumAssignOps` bound only `+=` is used by the code;
it is carried here as `addAssign`. -/
class MeterMarker (M : Type) where
  Field : Type
  addAssign : Field → Field → Field

/-- Rust trait `MeterEffectMarker`: a marker type declaring which meter
marker its effects target. -/
class MeterEffectMarker (E : Type) where
  Marker : Type
  [markerInst : MeterMarker Marker]

attribute [instance] MeterEffectMarker.markerInst

/-- Rust struct `Meter<T: MeterMarker>` with public fields `max` and
`current` (the `PhantomData` marker field carries no data). -/
structure Meter (M : Type) [MeterMarker M] where
  max : MeterMarker.Field M
  current : MeterMarker.Field M

/-- Rust struct `MeterEffect<T: MeterEffectMarker>` with private field
`amount`. -/
structure MeterEffect (E : Type) [MeterEffectMarker E] where
  amount : MeterMarker.Field (MeterEffectMarker.Marker E)

/-- `Meter::new_from_max`: builds a meter whose `current` is initialized to
the given `max`, with no validation. -/
def Meter.new_from_max {M : Type} [MeterMarker M] (max : MeterMarker.Field M) :
    Meter M :=
  { max := max, current := max }

/-- `MeterEffect::new`: stores the given signed delta. -/
def MeterEffect.new {A : Type} [MeterEffectMarker A]
    (amount : MeterMarker.Field (MeterEffectMarker.Marker A)) : MeterEffect A :=
  { amount := amount }

/-- An entity of the world, restricted to the components relevant here: it
may carry a meter and an effect of a first kind `A` and of a second,
independent kind `B` (each targeting its own meter marker).  `none` models
the component being absent or detached. -/
structure Entity (A B : Type) [MeterEffectMarker A] [MeterEffectMarker B] where
  meter1 : Option (Meter (MeterEffectMarker.Marker A))
  effect1 : Option (MeterEffect A)
  meter2 : Option (Meter (MeterEffectMarker.Marker B))
  effect2 : Option (MeterEffect B)

/-- The loop body of `MeterEffect::<A>::apply_effect` at a single entity:
if the entity carries both a `Meter<A::Marker>` and a `MeterEffect<A>`, the
query matches and `meter.current += effect.amount` runs; otherwise the
entity is not in the query result and is left as it is. -/
def MeterEffect.apply_effect_entity {A B : Type} [MeterEffectMarker A]
    [MeterEffectMarker B] (e : Entity A B) : Entity A B :=
  match e.meter1, e.effect1 with
  | some meter, some eff =>
      { e with
        meter1 := some { meter with
          current := MeterMarker.addAssign meter.current eff.amount }
        effect1 := some eff }
  | _, _ => e

/-- The system `MeterEffect::<A>::apply_effect`: one pass over the world,
running the loop body at every entity (entities lacking either component
are skipped inside the body). -/
def MeterEffect.apply_effect {A B : Type} [MeterEffectMarker A]
    [MeterEffectMarker B] (world : List (Entity A B)) : List (Entity A B) :=
  world.map MeterEffect.apply_effect_entity

/-- Health marker from the module documentation example: `Field = i64`,
modelled as the mathematical integers the spec reasons with. -/
structure HealthMarker where

@[reducible] instance : MeterMarker HealthMarker where
  Field := Int
  addAssign := fun c a => c + a

/-- Fire-damage effect marker from the documentation example, targeting
`HealthMarker`. -/
structure FireDamageMarker where

@[reducible] instance : MeterEffectMarker FireDamageMarker where
  Marker := HealthMarker

/-- A second, independent meter kind (mana), used for the claims about
unrelated meter kinds on the same entity. -/
structure ManaMarker where

@[reducible] instance : MeterMarker ManaMarker where
  Field := Int
  addAssign := fun c a => c + a

/-- An effect marker targeting `ManaMarker`, independent of the
health/fire-damage pair. -/
structure ManaDrainMarker where

@[reducible] instance : MeterEffectMarker ManaDrainMarker where
  Marker := ManaMarker

/-- Entities for the concrete health/mana instantiation. -/
abbrev GameEntity := Entity FireDamageMarker ManaDrainMarker

/-! ### Helper lemmas about the loop body -/

/-- When the entity carries both components, the loop body runs
`meter.current += effect.amount` and leaves everything else alone. -/
theorem apply_effect_entity_matched {A B : Type} [MeterEffectMarker A]
    [MeterEffectMarker B] (e : Entity A B)
    (m : Meter (MeterEffectMarker.Marker A)) (f : MeterEffect A)
    (hm : e.meter1 = some m) (hf : e.effect1 = some f) :
    MeterEffect.apply_effect_entity e =
      { e with
        meter1 := some
          { max := m.max, current := MeterMarker.addAssign m.current f.amount }
        effect1 := some f } := by
  obtain ⟨m1, f1, m2, f2⟩ := e
  cases m1 with
  | none => exact Option.noConfusion hm
  | some mv =>
    cases f1 with
    | none => exact Option.noConfusion hf
    | some fv =>
      have hm1 : mv = m := Option.some.inj hm
      have hf1 : fv = f := Option.some.inj hf
      subst hm1; subst hf1
      rfl

/-- When either component is missing, the query does not match and the
entity is untouched. -/
theorem apply_effect_entity_skip {A B : Type} [MeterEffectMarker A]
    [MeterEffectMarker B] (e : Entity A B)
    (h : e.meter1 = none ∨ e.effect1 = none) :
    MeterEffect.apply_effect_entity e = e := by
  obtain ⟨m1, f1, m2, f2⟩ := e
  cases m1 with
  | none => rfl
  | some mv =>
    cases f1 with
    | none => rfl
    | some fv =>
      rcases h with h | h
      · exact Option.noConfusion h
      · exact Option.noConfusion h

/-- The loop body never touches the second-kind meter. -/
theorem apply_effect_entity_meter2 {A B : Type} [MeterEffectMarker A]
    [MeterEffectMarker B] (e : Entity A B) :
    (MeterEffect.apply_effect_entity e).meter2 = e.meter2 := by
  obtain ⟨m1, f1, m2, f2⟩ := e
  cases m1 <;> cases f1 <;> rfl

/-- The loop body never touches the second-kind effect. -/
theorem apply_effect_entity_effect2 {A B : Type} [MeterEffectMarker A]
    [MeterEffectMarker B] (e : Entity A B) :
    (MeterEffect.apply_effect_entity e).effect2 = e.effect2 := by
  obtain ⟨m1, f1, m2, f2⟩ := e
  cases m1 <;> cases f1 <;> rfl

/-- The loop body reads the effect but never writes it. -/
theorem apply_effect_entity_effect1 {A B : Type} [MeterEffectMarker A]
    [MeterEffectMarker B] (e : Entity A B) :
    (MeterEffect.apply_effect_entity e).effect1 = e.effect1 := by
  obtain ⟨m1, f1, m2, f2⟩ := e
  cases m1 <;> cases f1 <;> rfl

/-! ### Concrete entities used in the claims -/

/-- A single entity carrying a health meter with maximum `mx` and current
value `c`, together with an attached fire-damage effect of amount `a`. -/
def fireEntity (mx c a : Int) : GameEntity :=
  ⟨some { max := mx, current := c }, some (MeterEffect.new a), none, none⟩

/-- An entity carrying a fire-damage effect but no health meter. -/
def effectOnlyEntity : GameEntity :=
  ⟨none, some (MeterEffect.new (7 : Int)), none, none⟩

/-- One pass of the system over a single matched entity adds the effect
amount into the current value and leaves the effect attached. -/
theorem apply_effect_fireEntity (mx c a : Int) :
    MeterEffect.apply_effect [fireEntity mx c a] = [fireEntity mx (c + a) a] :=
  rfl

/-! ### Claims -/

/-- Claim C1: starting from a meter with current value `c0` and an attached
effect of amount `a`, one invocation of `apply_effect` yields current value
`c0 + a`, and `n` successive invocations yield `c0 + n * a`; the effect is
not consumed, remaining attached with the same amount after every
invocation (the resulting entity is again `fireEntity` with amount `a`). -/
theorem apply_effect_cumulative (mx c0 a : Int) (n : Nat) :
    MeterEffect.apply_effect [fireEntity mx c0 a] = [fireEntity mx (c0 + a) a]
    ∧ (MeterEffect.apply_effect)^[n] [fireEntity mx c0 a] =
        [fireEntity mx (c0 + n * a) a] := by
  refine ⟨apply_effect_fireEntity mx c0 a, ?_⟩
  induction n with
  | zero => simp
  | succ k ih =>
    rw [Function.iterate_succ_apply', ih, apply_effect_fireEntity]
    have h : c0 + (k : Int) * a + a = c0 + ((k : Nat) + 1 : Int) * a := by ring
    push_cast at h ⊢
    rw [h]

/-- Claim C2: for every value `m` of the field type of any meter marker,
`Meter::new_from_max m` returns a meter with `current = m` and `max = m`;
the constructor is a total function with no validation, so construction
cannot fail for any input. -/
theorem new_from_max_current_eq_max (M : Type) [MeterMarker M]
    (m : MeterMarker.Field M) :
    (Meter.new_from_max m).current = m ∧ (Meter.new_from_max m).max = m :=
  ⟨rfl, rfl⟩

/-- Claim C3: the addition performed by `apply_effect` is unclamped: from a
full meter (`max = 100`, `current = 100`) an effect of `+50` drives
`current` to `150`, above `max`, and an effect of `-150` drives it to
`-50`, below zero; no clamping to the interval from `0` to `max` occurs. -/
theorem apply_effect_unclamped :
    (MeterEffect.apply_effect [fireEntity 100 100 50] = [fireEntity 100 150 50]
      ∧ (100 : Int) < 150)
    ∧ (MeterEffect.apply_effect [fireEntity 100 100 (-150)] =
        [fireEntity 100 (-50) (-150)]
      ∧ (-50 : Int) < 0) :=
  ⟨⟨rfl, by decide⟩, ⟨rfl, by decide⟩⟩

/-- Claim C4: an entity that does not carry both the meter and the matching
effect (either component absent or detached) is not matched by the query:
the update routine leaves it entirely unchanged, both as the loop body at
that entity and as a full pass over a world containing it, and no failure
occurs (the functions are total). -/
theorem apply_effect_skips_unmatched {A B : Type} [MeterEffectMarker A]
    [MeterEffectMarker B] (e : Entity A B)
    (h : e.meter1 = none ∨ e.effect1 = none) :
    MeterEffect.apply_effect_entity e = e
    ∧ MeterEffect.apply_effect [e] = [e] := by
  have hb := apply_effect_entity_skip e h
  exact ⟨hb, by simp [MeterEffect.apply_effect, hb]⟩

/-- Witness for C4: a concrete entity with a fire-damage effect but no
health meter is left unchanged by the update routine. -/
theorem apply_effect_skips_unmatched_witness :
    MeterEffect.apply_effect_entity effectOnlyEntity = effectOnlyEntity
    ∧ MeterEffect.apply_effect [effectOnlyEntity] = [effectOnlyEntity] :=
  apply_effect_skips_unmatched effectOnlyEntity (Or.inl rfl)

/-- Claim C5: on a matched entity, one invocation of the update routine
mutates only the meter's current field: the meter's `max` is preserved, the
effect is left exactly as it was (same amount, not consumed), and the
components of the other meter kind are untouched. -/
theorem apply_effect_mutates_only_current {A B : Type} [MeterEffectMarker A]
    [MeterEffectMarker B] (e : Entity A B)
    (m : Meter (MeterEffectMarker.Marker A)) (f : MeterEffect A)
    (hm : e.meter1 = some m) (hf : e.effect1 = some f) :
    (MeterEffect.apply_effect_entity e).meter1 = some
      { max := m.max, current := MeterMarker.addAssign m.current f.amount }
    ∧ (MeterEffect.apply_effect_entity e).effect1 = some f
    ∧ (MeterEffect.apply_effect_entity e).meter2 = e.meter2
    ∧ (MeterEffect.apply_effect_entity e).effect2 = e.effect2 := by
  rw [apply_effect_entity_matched e m f hm hf]
  exact ⟨rfl, rfl, rfl, rfl⟩

/-- Witness for C5: the frame property instantiated on a concrete matched
entity with maximum 100, current 100 and effect amount -5. -/
theorem apply_effect_mutates_only_current_witness :
    (MeterEffect.apply_effect_entity (fireEntity 100 100 (-5))).meter1 = some
      { max := (100 : Int),
        current := MeterMarker.addAssign (100 : Int) ((-5 : Int)) }
    ∧ (MeterEffect.apply_effect_entity (fireEntity 100 100 (-5))).effect1 =
        some (MeterEffect.new (-5 : Int))
    ∧ (MeterEffect.apply_effect_entity (fireEntity 100 100 (-5))).meter2 =
        (fireEntity 100 100 (-5)).meter2
    ∧ (MeterEffect.apply_effect_entity (fireEntity 100 100 (-5))).effect2 =
        (fireEntity 100 100 (-5)).effect2 :=
  apply_effect_mutates_only_current (fireEntity 100 100 (-5))
    { max := (100 : Int), current := (100 : Int) }
    (MeterEffect.new (-5 : Int)) rfl rfl

/-- Claim C6: one pass of `apply_effect` for the first effect kind never
touches a meter of the other kind: over any world, including worlds where
both unrelated meter kinds (and their effects) sit on the same entity, the
second-kind meter and effect components are unchanged at every entity. -/
theorem apply_effect_preserves_other_kind {A B : Type} [MeterEffectMarker A]
    [MeterEffectMarker B] (w : List (Entity A B)) :
    (MeterEffect.apply_effect w).map Entity.meter2 = w.map Entity.meter2
    ∧ (MeterEffect.apply_effect w).map Entity.effect2 = w.map Entity.effect2 := by
  constructor <;>
    simp [MeterEffect.apply_effect, List.map_map, Function.comp_def,
      apply_effect_entity_meter2, apply_effect_entity_effect2]

/-- Claim C7: noninterference across entities: in a two-entity world the
first entity's result after one pass is exactly the loop body applied to
its own prior state, and it is unchanged when the other entity's meter or
effect values are replaced by anything else (and symmetrically for the
second position). -/
theorem apply_effect_noninterference {A B : Type} [MeterEffectMarker A]
    [MeterEffectMarker B] (a b c : Entity A B) :
    (MeterEffect.apply_effect [a, b])[0]? =
        some (MeterEffect.apply_effect_entity a)
    ∧ (MeterEffect.apply_effect [a, b])[0]? =
        (MeterEffect.apply_effect [a, c])[0]?
    ∧ (MeterEffect.apply_effect [b, a])[1]? =
        (MeterEffect.apply_effect [c, a])[1]? :=
  ⟨rfl, rfl, rfl⟩

/-- Updating the world at one entity index: the loop body runs at index `i`
and every other index is untouched.  Iterating this over a list of indices
models running the pass of `apply_effect` in an explicit iteration order. -/
def MeterEffect.apply_effect_at {A B : Type} [MeterEffectMarker A]
    [MeterEffectMarker B] (w : Nat → Entity A B) (i : Nat) :
    Nat → Entity A B :=
  fun j => if j = i then MeterEffect.apply_effect_entity (w i) else w j

/-- The per-entity updates of one `apply_effect` pass performed in the
given iteration order over entity indices. -/
def MeterEffect.apply_effect_in_order {A B : Type} [MeterEffectMarker A]
    [MeterEffectMarker B] (w : Nat → Entity A B) (order : List Nat) :
    Nat → Entity A B :=
  order.foldl MeterEffect.apply_effect_at w

/-- Running the per-entity updates over a duplicate-free list of indices
updates exactly the listed entities, each from its own prior state. -/
theorem apply_effect_in_order_eq {A B : Type} [MeterEffectMarker A]
    [MeterEffectMarker B] :
    ∀ (order : List Nat), order.Nodup → ∀ (w : Nat → Entity A B) (j : Nat),
      MeterEffect.apply_effect_in_order w order j =
        if j ∈ order then MeterEffect.apply_effect_entity (w j) else w j := by
  intro order
  induction order with
  | nil => intro _ w j; simp [MeterEffect.apply_effect_in_order]
  | cons i rest ih =>
    intro hnd w j
    rw [List.nodup_cons] at hnd
    have hstep : MeterEffect.apply_effect_in_order w (i :: rest) =
        MeterEffect.apply_effect_in_order (MeterEffect.apply_effect_at w i)
          rest := rfl
    rw [hstep, ih hnd.2]
    by_cases hjr : j ∈ rest
    · have hji : j ≠ i := fun h => hnd.1 (h ▸ hjr)
      simp [MeterEffect.apply_effect_at, hjr, hji]
    · by_cases hji : j = i
      · subst hji
        simp [MeterEffect.apply_effect_at, hjr]
      · simp [MeterEffect.apply_effect_at, hjr, hji]

/-- Claim C8: the pass is order-independent across entities: performing the
per-entity updates of one `apply_effect` invocation in any two iteration
orders that visit the same entities (each exactly once) produces the same
final state at every entity. -/
theorem apply_effect_order_independent {A B : Type} [MeterEffectMarker A]
    [MeterEffectMarker B] (w : Nat → Entity A B) (o1 o2 : List Nat)
    (hnd : o1.Nodup) (hp : o1.Perm o2) :
    MeterEffect.apply_effect_in_order w o1 =
      MeterEffect.apply_effect_in_order w o2 := by
  funext j
  rw [apply_effect_in_order_eq o1 hnd w j,
    apply_effect_in_order_eq o2 (hp.nodup hnd) w j]
  simp [hp.mem_iff]

/-- A concrete world for the order-independence witness: every index holds
a matched health/fire-damage entity. -/
def constantWorld : Nat → GameEntity := fun _ => fireEntity 100 100 (-5)

/-- Witness for C8: visiting entities 0 and 1 in either order yields the
same final world. -/
theorem apply_effect_order_independent_witness :
    MeterEffect.apply_effect_in_order constantWorld [0, 1] =
      MeterEffect.apply_effect_in_order constantWorld [1, 0] :=
  apply_effect_order_independent constantWorld [0, 1] [1, 0]
    (by decide) (by decide)

/-- Claim C9: every operation of the core is total: the constructors are
total functions yielding their stored values at every input, and one
invocation of `apply_effect` runs to completion over the full finite
matched entity set, producing a world of the same length in which every
position is the loop body of the source applied to the prior entity. -/
theorem apply_effect_total {A B : Type} [MeterEffectMarker A]
    [MeterEffectMarker B] (w : List (Entity A B)) :
    (MeterEffect.apply_effect w).length = w.length
    ∧ (∀ i : Nat, (MeterEffect.apply_effect w)[i]? =
        (w[i]?).map MeterEffect.apply_effect_entity)
    ∧ (∀ m : Int, Meter.new_from_max (M := HealthMarker) m =
        { max := m, current := m })
    ∧ (∀ a : Int, MeterEffect.new (A := FireDamageMarker) a =
        { amount := a }) := by
  refine ⟨by simp [MeterEffect.apply_effect], fun i => ?_, fun m => rfl,
    fun a => rfl⟩
  simp [MeterEffect.apply_effect]

/-- Claim C10: `MeterEffect::new a` stores exactly `a` in `amount`, and the
amount of every attached effect (of either kind) is unchanged by a pass of
`apply_effect`, which takes mutable access to the effect but never writes
it; no other core operation touches an existing effect, so the amount
remains the value passed at construction. -/
theorem amount_immutable {A B : Type} [MeterEffectMarker A]
    [MeterEffectMarker B]
    (a : MeterMarker.Field (MeterEffectMarker.Marker A))
    (w : List (Entity A B)) :
    (MeterEffect.new a : MeterEffect A).amount = a
    ∧ (MeterEffect.apply_effect w).map Entity.effect1 = w.map Entity.effect1
    ∧ (MeterEffect.apply_effect w).map Entity.effect2 = w.map Entity.effect2 := by
  refine ⟨rfl, ?_, ?_⟩ <;>
    simp [MeterEffect.apply_effect, List.map_map, Function.comp_def,
      apply_effect_entity_effect1, apply_effect_entity_effect2]
